import Mathlib

/-!
Verification of the voice-capture session of `src/components/VoiceRecorder.tsx`.

The component is embedded as a state record (`RecorderState`) whose fields are
the React state hooks (`isRecording`, `transcript`, `isSpeaking`, `volume`,
`recordingDuration`) and the mutable refs (recorder handle, recognition feed,
silence timeout, duration interval, animation frame, audio context, stream
tracks), together with the observable callback histories
(`completedCalls` for `onRecordingComplete`, `inputCalls` for `onInputChange`).
Each event handler of the source is a function `RecorderState → RecorderState`
executed atomically, and the two wall-clock timers (the one-shot silence
timeout and the 100 ms duration interval) are discharged by an explicit
scheduler (`advance` / `advanceTo`) that fires every due timer in time order
between external events (`runTo`).
-/

/-- One entry of a recognizer result batch:
`event.results[i][0].transcript` and `event.results[i].isFinal`. -/
structure Fragment where
  text : String
  isFinal : Bool
deriving DecidableEq

/-- JavaScript `String.prototype.trim()`: strip leading and trailing
whitespace.  Written over the character list so that it is computable by
reduction. -/
def jsTrim (s : String) : String :=
  ⟨((s.data.dropWhile Char.isWhitespace).reverse.dropWhile Char.isWhitespace).reverse⟩

/-- `SILENCE_THRESHOLD` (line 26): 2 seconds of silence before auto-stopping. -/
def SILENCE_THRESHOLD : Nat := 2000

/-- `MAX_RECORDING_DURATION` (line 27): 60 seconds max recording. -/
def MAX_RECORDING_DURATION : Nat := 60000

/-- The state of one `VoiceRecorder` component instance: React state hooks,
refs, and the histories of the two caller callbacks. -/
structure RecorderState where
  isRecording : Bool
  transcript : String
  isSpeaking : Bool
  volume : ℚ
  recordingDuration : Nat
  /-- `mediaRecorderRef.current ≠ null`. -/
  mediaRecorder : Bool
  /-- the media recorder has been started and not stopped. -/
  mediaRecorderActive : Bool
  /-- the speech recognition feed is started. -/
  recognitionOn : Bool
  /-- `silenceTimeoutRef`: absolute deadline and the `currentTranscript`
  captured by the timeout closure (lines 57-61). -/
  silenceTimer : Option (Nat × String)
  /-- `durationIntervalRef`: interval alive, with its `startTime` (lines 85-86). -/
  durationStart : Option Nat
  /-- `animationFrameRef`: the per-frame level-sampling loop is armed. -/
  animationFrame : Bool
  /-- `audioContextRef` holds a context whose state is not `closed`. -/
  audioContextOpen : Bool
  /-- the tracks of the acquired `getUserMedia` stream are live. -/
  streamTracksLive : Bool
  /-- arguments of all `onRecordingComplete` calls so far, oldest first. -/
  completedCalls : List String
  /-- arguments of all `onInputChange` calls so far, oldest first. -/
  inputCalls : List String
deriving DecidableEq

/-- The component before any recording: every hook at its `useState` initial
value, every ref `null`. -/
def initState : RecorderState :=
  { isRecording := false, transcript := "", isSpeaking := false, volume := 0,
    recordingDuration := 0, mediaRecorder := false, mediaRecorderActive := false,
    recognitionOn := false, silenceTimer := none, durationStart := none,
    animationFrame := false, audioContextOpen := false, streamTracksLive := false,
    completedCalls := [], inputCalls := [] }

/-- `cleanup` (lines 103-120): stop the recognition feed, clear the silence
timeout, cancel the animation frame, clear the duration interval, close the
audio context, reset `recordingDuration` to 0.  It does NOT touch the media
recorder, the stream tracks, `transcript`, `isRecording` or `isSpeaking`. -/
def cleanup (s : RecorderState) : RecorderState :=
  { s with recognitionOn := false, silenceTimer := none, animationFrame := false,
           durationStart := none, audioContextOpen := false, recordingDuration := 0 }

/-- `stopRecording` (lines 187-203): guarded by
`mediaRecorderRef.current && isRecording`.  Stops the recorder (whose `onstop`
handler, lines 171-174, stops the stream tracks and runs `cleanup`), stops
recognition, clears the silence timeout, resets the recording/speaking flags,
delivers the transcript to `onRecordingComplete` iff it trims non-empty, then
clears the transcript. -/
def stopRecording (s : RecorderState) : RecorderState :=
  if s.mediaRecorder && s.isRecording then
    let s1 : RecorderState :=
      { s with mediaRecorderActive := false, recognitionOn := false,
               silenceTimer := none, isRecording := false, isSpeaking := false,
               completedCalls :=
                 if jsTrim s.transcript = "" then s.completedCalls
                 else s.completedCalls ++ [s.transcript],
               transcript := "" }
    cleanup { s1 with streamTracksLive := false }
  else s

/-- Concatenation of the final fragments of a batch slice, in order
(the `finalTranscript` accumulator of lines 38-48). -/
def finalsText : List Fragment → String
  | [] => ""
  | r :: rest => (if r.isFinal then r.text else "") ++ finalsText rest

/-- Concatenation of the interim fragments of a batch slice, in order
(the `interimTranscript` accumulator of lines 38-48). -/
def interimsText : List Fragment → String
  | [] => ""
  | r :: rest => (if r.isFinal then "" else r.text) ++ interimsText rest

/-- The loop of lines 41-48, literally: one pass over the batch from the
start index onward, appending each fragment's text to one of two
accumulators according to its finality. -/
def collectBatch (rel : List Fragment) : String × String :=
  rel.foldl
    (fun acc r => if r.isFinal then (acc.1 ++ r.text, acc.2) else (acc.1, acc.2 ++ r.text))
    ("", "")

/-- `const currentTranscript = finalTranscript || interimTranscript` (line 50):
the empty string is falsy in JavaScript. -/
def batchTranscript (startIdx : Nat) (results : List Fragment) : String :=
  let acc := collectBatch (results.drop startIdx)
  if acc.1 = "" then acc.2 else acc.1

/-- `recognitionRef.current.onresult` (lines 37-62), run at absolute time
`now`: fold the batch from `event.resultIndex` onward, replace the transcript
wholesale, call `onInputChange`, and cancel + re-arm the silence timeout to
`now + SILENCE_THRESHOLD`, capturing `currentTranscript` in its closure. -/
def onresult (s : RecorderState) (now startIdx : Nat) (results : List Fragment) :
    RecorderState :=
  let cur := batchTranscript startIdx results
  { s with transcript := cur,
           inputCalls := s.inputCalls ++ [cur],
           silenceTimer := some (now + SILENCE_THRESHOLD, cur) }

/-- The silence timeout callback (lines 57-61): the timeout has fired (so the
timer cell is spent); it stops the recording only if the captured
`currentTranscript` trims non-empty. -/
def fireSilence (s : RecorderState) (captured : String) : RecorderState :=
  let s1 : RecorderState := { s with silenceTimer := none }
  if jsTrim captured = "" then s1 else stopRecording s1

/-- One tick of the duration interval (lines 86-93) at absolute time `now`:
recompute `recordingDuration` from the interval's `startTime` and force a stop
once it reaches `MAX_RECORDING_DURATION`.  A tick can only occur while the
interval ref is set. -/
def durationTick (s : RecorderState) (now : Nat) : RecorderState :=
  match s.durationStart with
  | none => s
  | some st =>
      let dur := now - st
      let s1 : RecorderState := { s with recordingDuration := dur }
      if MAX_RECORDING_DURATION ≤ dur then stopRecording s1 else s1

/-- `recognitionRef.current.onerror` (lines 64-69): log the error; stop the
recording only for the `no-speech` error kind. -/
def onerror (s : RecorderState) (err : String) : RecorderState :=
  if err = "no-speech" then stopRecording s else s

/-- `recognitionRef.current.onend` (lines 71-75): restart the recognition feed
iff the session is still recording. -/
def onend (s : RecorderState) : RecorderState :=
  if s.isRecording then { s with recognitionOn := true } else s

/-- JavaScript `Array.prototype.reduce((a, b) => a + b)` with no initial
value (line 127): `none` (a `TypeError`) on the empty array, else the head
seeded into a left fold. -/
def jsReduceAdd : List Nat → Option Nat
  | [] => none
  | h :: t => some (t.foldl (· + ·) h)

/-- `checkAudioLevel` (lines 125-133) on one sampled frequency-bin buffer:
`average = reduce(+)/length`, `normalizedVolume = min(average / 128, 1)`,
`isSpeaking = normalizedVolume > 0.15`, and the animation frame is re-armed.
Arithmetic is modelled exactly over ℚ. -/
def checkAudioLevel (s : RecorderState) (bins : List Nat) : Option RecorderState :=
  (jsReduceAdd bins).map fun total =>
    let average : ℚ := (total : ℚ) / (bins.length : ℚ)
    let normalizedVolume : ℚ := min (average / 128) 1
    { s with volume := normalizedVolume,
             isSpeaking := decide ((15 : ℚ) / 100 < normalizedVolume),
             animationFrame := true }

/-- Which step of `startRecording` (lines 138-185) throws/rejects, if any. -/
inductive StartOutcome where
  /-- `getUserMedia` rejects (line 144). -/
  | mediaFail
  /-- the `MediaRecorder` constructor throws (line 152), e.g. an unsupported
  `audio/webm;codecs=opus` mime type. -/
  | recorderFail
  /-- the analyser-graph setup throws after `new AudioContext()`
  (lines 159-164). -/
  | analyserFail
  /-- `recognition.start()` throws after `mediaRecorder.start(100)`
  (lines 176-179). -/
  | feedFail
  /-- every step succeeds. -/
  | success
deriving DecidableEq

/-- `startRecording` (lines 138-185) at absolute time `now`: close any stale
audio context, then run the acquisition steps in source order; any failure
jumps to the `catch` block, which only logs and calls `cleanup` (line 183).
On success the recording flag is set, and the `isRecording` effect
(lines 83-101) arms the duration interval with `startTime = now`. -/
def startRecording (s : RecorderState) (now : Nat) (o : StartOutcome) : RecorderState :=
  let s0 : RecorderState := { s with audioContextOpen := false }
  match o with
  | .mediaFail => cleanup s0
  | .recorderFail => cleanup { s0 with streamTracksLive := true }
  | .analyserFail =>
      cleanup { s0 with streamTracksLive := true, mediaRecorder := true,
                        audioContextOpen := true }
  | .feedFail =>
      cleanup { s0 with streamTracksLive := true, mediaRecorder := true,
                        audioContextOpen := true, animationFrame := true,
                        mediaRecorderActive := true }
  | .success =>
      { s0 with streamTracksLive := true, mediaRecorder := true,
                audioContextOpen := true, animationFrame := true,
                mediaRecorderActive := true, recognitionOn := true,
                isRecording := true, durationStart := some now }

/-- A session freshly and successfully started at time `t`. -/
def recordingAt (t : Nat) : RecorderState := startRecording initState t .success

/-- Is the duration interval due to tick at exactly time `d`? (The interval
fires at `startTime + 100·k`, `k ≥ 1`.) -/
def tickDueAt (s : RecorderState) (d : Nat) : Bool :=
  match s.durationStart with
  | some st => decide (st < d) && decide ((d - st) % 100 = 0)
  | none => false

/-- The duration-interval part of the instant `d`: tick iff the interval is
due at `d`. -/
def tickPhase (s : RecorderState) (d : Nat) : RecorderState :=
  if tickDueAt s d then durationTick s d else s

/-- The silence-timeout part of the instant `d`: fire iff the pending deadline
is exactly `d`. -/
def silencePhase (s : RecorderState) (d : Nat) : RecorderState :=
  match s.silenceTimer with
  | some (dl, captured) => if dl = d then fireSilence s captured else s
  | none => s

/-- Fire every timer due at exactly time `d`: the 100 ms duration tick first,
then the silence timeout if its deadline is `d`. -/
def fireAt (s : RecorderState) (d : Nat) : RecorderState :=
  silencePhase (tickPhase s d) d

/-- The earliest duration-interval tick strictly after `now`, given the
interval's `startTime`. -/
def nextTick (st now : Nat) : Nat := st + 100 * ((now - st) / 100 + 1)

/-- The earliest duration tick in `(now, target]`, if any. -/
def dueTickTime (s : RecorderState) (now target : Nat) : Option Nat :=
  match s.durationStart with
  | some st => if nextTick st now ≤ target then some (nextTick st now) else none
  | none => none

/-- The silence deadline if it lies in `(now, target]`. -/
def dueSilenceTime (s : RecorderState) (now target : Nat) : Option Nat :=
  match s.silenceTimer with
  | some (dl, _) => if now < dl ∧ dl ≤ target then some dl else none
  | none => none

/-- The earliest timer firing in `(now, target]`, if any. -/
def earliestDue (s : RecorderState) (now target : Nat) : Option Nat :=
  match dueTickTime s now target, dueSilenceTime s now target with
  | some a, some b => some (min a b)
  | some a, none => some a
  | none, some b => some b
  | none, none => none

/-- Discharge, in time order, every timer firing in `(now, target]`.  `fuel`
bounds the number of firings; firings happen at strictly increasing times, so
`target + 1 - now` is always enough. -/
def advance : Nat → RecorderState → Nat → Nat → RecorderState
  | 0, s, _, _ => s
  | fuel + 1, s, now, target =>
      match earliestDue s now target with
      | none => s
      | some d => advance fuel (fireAt s d) d target

/-- Let wall-clock time pass from `now` to `target` with no external event:
every due timer fires in order. -/
def advanceTo (s : RecorderState) (now target : Nat) : RecorderState :=
  advance (target + 1 - now) s now target

/-- An external event delivered to the component. -/
inductive Ev where
  /-- a recognizer result batch: `event.resultIndex` and `event.results`. -/
  | result (startIdx : Nat) (results : List Fragment)
  /-- a recognition error with its `event.error` string. -/
  | error (err : String)
  /-- the recognition feed's own `end` signal. -/
  | streamEnd
  /-- an explicit `stopRecording` call (the stop button). -/
  | stop
deriving DecidableEq

/-- Dispatch one external event at absolute time `now`. -/
def step (s : RecorderState) (now : Nat) : Ev → RecorderState
  | .result i rs => onresult s now i rs
  | .error e => onerror s e
  | .streamEnd => onend s
  | .stop => stopRecording s

/-- Run a timed trace of external events from time `now`, firing all due
timers before each event, then let time run on to `target`. -/
def runTo (s : RecorderState) (now : Nat) : List (Nat × Ev) → Nat → RecorderState
  | [], target => advanceTo s now target
  | (t, e) :: rest, target => runTo (step (advanceTo s now t) t e) t rest target

/-- Recognizes a recognizer-result event. -/
def isResultEv : Ev → Bool
  | .result _ _ => true
  | _ => false

/-- A bare sequence of result batches folded through `onresult` (timer
deadlines ignored): the transcript-only view of a batch sequence. -/
def foldBatches (s : RecorderState) (bs : List (Nat × List Fragment)) : RecorderState :=
  bs.foldl (fun a b => onresult a 0 b.1 b.2) s

set_option maxRecDepth 100000

/-! ### Batch folding: the two-accumulator loop separates finals from interims -/

theorem collectBatch_go (l : List Fragment) (a b : String) :
    l.foldl
      (fun acc r => if r.isFinal then (acc.1 ++ r.text, acc.2) else (acc.1, acc.2 ++ r.text))
      (a, b) = (a ++ finalsText l, b ++ interimsText l) := by
  induction l generalizing a b with
  | nil => simp [finalsText, interimsText]
  | cons r rest ih =>
      cases hf : r.isFinal <;>
        simp [finalsText, interimsText, hf, ih, String.append_assoc, String.empty_append]

theorem collectBatch_eq (l : List Fragment) :
    collectBatch l = (finalsText l, interimsText l) := by
  simpa [collectBatch, String.empty_append] using collectBatch_go l "" ""

theorem batchTranscript_eq (startIdx : Nat) (results : List Fragment) :
    batchTranscript startIdx results =
      (if finalsText (results.drop startIdx) = "" then interimsText (results.drop startIdx)
       else finalsText (results.drop startIdx)) := by
  simp [batchTranscript, collectBatch_eq]

/-! ### Observation lemmas for teardown and the timer handlers -/

theorem stopRecording_cases (s : RecorderState) :
    stopRecording s = s ∨
      ((stopRecording s).isRecording = false ∧ (stopRecording s).silenceTimer = none ∧
       (stopRecording s).durationStart = none ∧
       (stopRecording s).mediaRecorder = s.mediaRecorder) := by
  unfold stopRecording
  split
  · exact Or.inr (by simp [cleanup])
  · exact Or.inl rfl

theorem stopRecording_mediaRecorder (s : RecorderState) :
    (stopRecording s).mediaRecorder = s.mediaRecorder := by
  unfold stopRecording; split <;> simp [cleanup]

theorem stopRecording_not_recording (s : RecorderState) (hmr : s.mediaRecorder = true)
    (hrec : s.isRecording = true) : (stopRecording s).isRecording = false := by
  unfold stopRecording; simp [hmr, hrec, cleanup]

theorem stopRecording_of_not_recording (s : RecorderState) (h : s.isRecording = false) :
    stopRecording s = s := by
  unfold stopRecording; simp [h]

theorem durationTick_cases (s : RecorderState) (d : Nat) :
    ((durationTick s d).isRecording = s.isRecording ∧
     (durationTick s d).silenceTimer = s.silenceTimer ∧
     (durationTick s d).mediaRecorder = s.mediaRecorder ∧
     (durationTick s d).durationStart = s.durationStart) ∨
    ((durationTick s d).isRecording = false ∧ (durationTick s d).silenceTimer = none ∧
     (durationTick s d).durationStart = none ∧
     (durationTick s d).mediaRecorder = s.mediaRecorder) := by
  cases hds : s.durationStart with
  | none => exact Or.inl (by simp [durationTick, hds])
  | some st =>
      by_cases hcap : MAX_RECORDING_DURATION ≤ d - st
      · have hdt : durationTick s d = stopRecording { s with recordingDuration := d - st } := by
          simp [durationTick, hds, hcap]
        rcases stopRecording_cases { s with recordingDuration := d - st } with h | h
        · rw [hdt, h]; exact Or.inl (by simp [hds])
        · rw [hdt]; exact Or.inr ⟨h.1, h.2.1, h.2.2.1, by rw [h.2.2.2]⟩
      · exact Or.inl (by simp [durationTick, hds, hcap])

theorem fireSilence_silenceTimer (s : RecorderState) (c : String) :
    (fireSilence s c).silenceTimer = none := by
  unfold fireSilence
  split
  · rfl
  · rcases stopRecording_cases { s with silenceTimer := none } with h | h
    · simp [h]
    · exact h.2.1

theorem fireSilence_cases (s : RecorderState) (c : String) :
    ((fireSilence s c).isRecording = s.isRecording ∧
     (fireSilence s c).mediaRecorder = s.mediaRecorder ∧
     (fireSilence s c).durationStart = s.durationStart) ∨
    ((fireSilence s c).isRecording = false ∧ (fireSilence s c).durationStart = none ∧
     (fireSilence s c).mediaRecorder = s.mediaRecorder) := by
  unfold fireSilence
  split
  · exact Or.inl (by simp)
  · rcases stopRecording_cases { s with silenceTimer := none } with h | h
    · exact Or.inl (by simp [h])
    · exact Or.inr ⟨h.1, h.2.2.1, by simp [h.2.2.2]⟩

theorem fireSilence_stops (s : RecorderState) (c : String) (hmr : s.mediaRecorder = true)
    (hc : ¬ jsTrim c = "") : (fireSilence s c).isRecording = false := by
  have h1 : fireSilence s c = stopRecording { s with silenceTimer := none } := by
    simp [fireSilence, hc]
  rw [h1]
  cases hrec : s.isRecording with
  | true => exact stopRecording_not_recording _ (by simp [hmr]) (by simp [hrec])
  | false => rw [stopRecording_of_not_recording _ (by simp [hrec])]

theorem fireSilence_not_recording (s : RecorderState) (c : String)
    (h : s.isRecording = false) : (fireSilence s c).isRecording = false := by
  unfold fireSilence
  split
  · simpa using h
  · rw [stopRecording_of_not_recording _ (by simpa using h)]
    simpa using h

theorem tickPhase_cases (s : RecorderState) (d : Nat) :
    ((tickPhase s d).isRecording = s.isRecording ∧
     (tickPhase s d).silenceTimer = s.silenceTimer ∧
     (tickPhase s d).mediaRecorder = s.mediaRecorder ∧
     (tickPhase s d).durationStart = s.durationStart) ∨
    ((tickPhase s d).isRecording = false ∧ (tickPhase s d).silenceTimer = none ∧
     (tickPhase s d).durationStart = none ∧
     (tickPhase s d).mediaRecorder = s.mediaRecorder) := by
  unfold tickPhase
  split
  · exact durationTick_cases s d
  · exact Or.inl ⟨rfl, rfl, rfl, rfl⟩

theorem silencePhase_none (s : RecorderState) (d : Nat) (h : s.silenceTimer = none) :
    silencePhase s d = s := by
  unfold silencePhase; rw [h]

theorem silencePhase_of_ne (s : RecorderState) (d D : Nat) (c : String)
    (h : s.silenceTimer = some (D, c)) (hne : D ≠ d) : silencePhase s d = s := by
  unfold silencePhase; rw [h]; simp [hne]

theorem silencePhase_stops (s : RecorderState) (d : Nat) (c : String)
    (h : s.silenceTimer = some (d, c)) (hmr : s.mediaRecorder = true)
    (hc : ¬ jsTrim c = "") : (silencePhase s d).isRecording = false := by
  unfold silencePhase; rw [h]; simp only [if_pos rfl]
  exact fireSilence_stops s c hmr hc

theorem silencePhase_mediaRecorder (s : RecorderState) (d : Nat) :
    (silencePhase s d).mediaRecorder = s.mediaRecorder := by
  unfold silencePhase
  cases h : s.silenceTimer with
  | none => rfl
  | some p =>
      obtain ⟨dl, c⟩ := p
      by_cases hdl : dl = d
      · simp only [hdl, if_pos rfl]
        rcases fireSilence_cases s c with hc | hc
        · exact hc.2.1
        · exact hc.2.2
      · simp [hdl]

theorem silencePhase_not_recording (s : RecorderState) (d : Nat)
    (h : s.isRecording = false) : (silencePhase s d).isRecording = false := by
  unfold silencePhase
  cases hst : s.silenceTimer with
  | none => exact h
  | some p =>
      obtain ⟨dl, c⟩ := p
      by_cases hdl : dl = d
      · simp only [hdl, if_pos rfl]
        exact fireSilence_not_recording s c h
      · simpa [hdl] using h

theorem silencePhase_fire (s : RecorderState) (d : Nat) (c : String)
    (h : s.silenceTimer = some (d, c)) : silencePhase s d = fireSilence s c := by
  unfold silencePhase; rw [h]; simp

theorem silencePhase_rec_preserved (s : RecorderState) (d : Nat)
    (h : (silencePhase s d).isRecording = true) :
    s.isRecording = true ∧ (silencePhase s d).durationStart = s.durationStart := by
  cases hst : s.silenceTimer with
  | none => rw [silencePhase_none s d hst] at h ⊢; exact ⟨h, rfl⟩
  | some p =>
      obtain ⟨dl, c⟩ := p
      by_cases hdl : dl = d
      · subst hdl
        rw [silencePhase_fire s dl c hst] at h ⊢
        rcases fireSilence_cases s c with hc | hc
        · exact ⟨by rw [← hc.1]; exact h, hc.2.2⟩
        · exact absurd h (by simp [hc.1])
      · rw [silencePhase_of_ne s d dl c hst hdl] at h ⊢; exact ⟨h, rfl⟩

theorem fireAt_mediaRecorder (s : RecorderState) (d : Nat) :
    (fireAt s d).mediaRecorder = s.mediaRecorder := by
  unfold fireAt
  rw [silencePhase_mediaRecorder]
  rcases tickPhase_cases s d with h | h
  · exact h.2.2.1
  · exact h.2.2.2

theorem fireAt_not_recording (s : RecorderState) (d : Nat)
    (h : s.isRecording = false) : (fireAt s d).isRecording = false := by
  unfold fireAt
  apply silencePhase_not_recording
  rcases tickPhase_cases s d with hc | hc
  · rw [hc.1]; exact h
  · exact hc.1

theorem nextTick_gt (st now : Nat) : now < nextTick st now := by
  unfold nextTick
  omega

theorem dueTickTime_none (s : RecorderState) (now target : Nat)
    (h : s.durationStart = none) : dueTickTime s now target = none := by
  unfold dueTickTime; rw [h]

theorem dueTickTime_some (s : RecorderState) (now target st : Nat)
    (h : s.durationStart = some st) :
    dueTickTime s now target =
      if nextTick st now ≤ target then some (nextTick st now) else none := by
  unfold dueTickTime; rw [h]

theorem dueSilenceTime_none (s : RecorderState) (now target : Nat)
    (h : s.silenceTimer = none) : dueSilenceTime s now target = none := by
  unfold dueSilenceTime; rw [h]

theorem dueSilenceTime_some (s : RecorderState) (now target dl : Nat) (c : String)
    (h : s.silenceTimer = some (dl, c)) :
    dueSilenceTime s now target = if now < dl ∧ dl ≤ target then some dl else none := by
  unfold dueSilenceTime; rw [h]

theorem dueTick_bounds (s : RecorderState) (now target a : Nat)
    (h : dueTickTime s now target = some a) : now < a ∧ a ≤ target := by
  cases hds : s.durationStart with
  | none => rw [dueTickTime_none s now target hds] at h; cases h
  | some st =>
      rw [dueTickTime_some s now target st hds] at h
      by_cases hle : nextTick st now ≤ target
      · rw [if_pos hle] at h
        have ha : nextTick st now = a := Option.some.inj h
        exact ⟨ha ▸ nextTick_gt st now, ha ▸ hle⟩
      · rw [if_neg hle] at h; cases h

theorem dueSilence_bounds (s : RecorderState) (now target b : Nat)
    (h : dueSilenceTime s now target = some b) : now < b ∧ b ≤ target := by
  cases hst : s.silenceTimer with
  | none => rw [dueSilenceTime_none s now target hst] at h; cases h
  | some p =>
      obtain ⟨dl, c⟩ := p
      rw [dueSilenceTime_some s now target dl c hst] at h
      by_cases hcond : now < dl ∧ dl ≤ target
      · rw [if_pos hcond] at h
        have hb : dl = b := Option.some.inj h
        exact hb ▸ hcond
      · rw [if_neg hcond] at h; cases h

theorem earliestDue_bounds (s : RecorderState) (now target d : Nat)
    (h : earliestDue s now target = some d) : now < d ∧ d ≤ target := by
  unfold earliestDue at h
  cases h1 : dueTickTime s now target with
  | none =>
      cases h2 : dueSilenceTime s now target with
      | none => rw [h1, h2] at h; cases h
      | some b =>
          rw [h1, h2] at h
          exact (Option.some.inj h) ▸ dueSilence_bounds s now target b h2
  | some a =>
      cases h2 : dueSilenceTime s now target with
      | none =>
          rw [h1, h2] at h
          exact (Option.some.inj h) ▸ dueTick_bounds s now target a h1
      | some b =>
          rw [h1, h2] at h
          have ha := dueTick_bounds s now target a h1
          have hb := dueSilence_bounds s now target b h2
          exact (Option.some.inj h) ▸
            ⟨lt_min ha.1 hb.1, le_trans (min_le_left a b) ha.2⟩

theorem earliestDue_of_silence (s : RecorderState) (now target D : Nat) (c : String)
    (hst : s.silenceTimer = some (D, c)) (h1 : now < D) (h2 : D ≤ target) :
    ∃ d, earliestDue s now target = some d ∧ d ≤ D := by
  have hs : dueSilenceTime s now target = some D := by
    unfold dueSilenceTime; rw [hst]; simp [h1, h2]
  cases ht : dueTickTime s now target with
  | none =>
      refine ⟨D, ?_, le_rfl⟩
      unfold earliestDue; rw [ht, hs]
  | some a =>
      refine ⟨min a D, ?_, min_le_right a D⟩
      unfold earliestDue; rw [ht, hs]

theorem earliestDue_of_tick (s : RecorderState) (now target a : Nat)
    (ht : dueTickTime s now target = some a) :
    ∃ d, earliestDue s now target = some d ∧ d ≤ a := by
  cases hs : dueSilenceTime s now target with
  | none =>
      refine ⟨a, ?_, le_rfl⟩
      unfold earliestDue; rw [ht, hs]
  | some b =>
      refine ⟨min a b, ?_, min_le_left a b⟩
      unfold earliestDue; rw [ht, hs]

theorem advance_not_recording (fuel : Nat) :
    ∀ (s : RecorderState) (now target : Nat), s.isRecording = false →
      (advance fuel s now target).isRecording = false := by
  induction fuel with
  | zero => intro s now target h; exact h
  | succ n ih =>
      intro s now target h
      simp only [advance]
      cases hd : earliestDue s now target with
      | none => exact h
      | some d => exact ih _ _ _ (fireAt_not_recording s d h)

theorem advance_mediaRecorder (fuel : Nat) :
    ∀ (s : RecorderState) (now target : Nat),
      (advance fuel s now target).mediaRecorder = s.mediaRecorder := by
  induction fuel with
  | zero => intro s now target; rfl
  | succ n ih =>
      intro s now target
      simp only [advance]
      cases hd : earliestDue s now target with
      | none => rfl
      | some d => rw [ih _ _ _, fireAt_mediaRecorder]

/-- While a silence timeout with a non-blank captured transcript is pending at
deadline `D` and the recorder handle exists, letting time run to `D` always
leaves the session stopped: either the deadline fires (and the captured text
forces `stopRecording`), or a duration-cap tick stopped the session first. -/
theorem advance_silence_stops (fuel : Nat) :
    ∀ (s : RecorderState) (now D : Nat) (c : String),
      s.mediaRecorder = true → s.silenceTimer = some (D, c) → ¬ jsTrim c = "" →
      now < D → D ≤ now + fuel →
      (advance fuel s now D).isRecording = false := by
  induction fuel with
  | zero => intro s now D c _ _ _ h1 h2; omega
  | succ n ih =>
      intro s now D c hmr hst hc h1 h2
      obtain ⟨d, hd, hdD⟩ := earliestDue_of_silence s now D D c hst h1 le_rfl
      have hbounds := earliestDue_bounds s now D d hd
      simp only [advance, hd]
      rcases tickPhase_cases s d with hcase | hcase
      · -- the tick (if any) preserved the session
        by_cases hfin : d = D
        · -- the silence deadline fires here and stops the session
          have hstop : (fireAt s d).isRecording = false := by
            unfold fireAt
            apply silencePhase_stops (tickPhase s d) d c
            · rw [hcase.2.1, hst, hfin]
            · rw [hcase.2.2.1]; exact hmr
            · exact hc
          exact advance_not_recording n _ d D hstop
        · -- the silence deadline is strictly later: only the tick fired
          have hfa : fireAt s d = tickPhase s d := by
            unfold fireAt
            exact silencePhase_of_ne (tickPhase s d) d D c (by rw [hcase.2.1, hst])
              (fun hDd => hfin hDd.symm)
          apply ih (fireAt s d) d D c
          · rw [hfa, hcase.2.2.1]; exact hmr
          · rw [hfa, hcase.2.1, hst]
          · exact hc
          · exact lt_of_le_of_ne hdD hfin
          · omega
      · -- the tick stopped the session (and cleared the timers)
        have hstop : (fireAt s d).isRecording = false := by
          unfold fireAt
          rw [silencePhase_none (tickPhase s d) d hcase.2.1]
          exact hcase.1
        exact advance_not_recording n _ d D hstop

/-- The duration-cap invariant: the recorder handle exists, and while the
session records, the duration interval is armed with `startTime = 0`. -/
def capInv (s : RecorderState) : Prop :=
  s.mediaRecorder = true ∧ (s.isRecording = true → s.durationStart = some 0)

theorem fireAt_capInv (s : RecorderState) (d : Nat) (h : capInv s) :
    capInv (fireAt s d) := by
  refine ⟨by rw [fireAt_mediaRecorder]; exact h.1, fun hrec => ?_⟩
  unfold fireAt at hrec ⊢
  have hpres := silencePhase_rec_preserved (tickPhase s d) d hrec
  rw [hpres.2]
  rcases tickPhase_cases s d with hcase | hcase
  · rw [hcase.2.2.2]
    exact h.2 (by rw [← hcase.1]; exact hpres.1)
  · exact absurd hpres.1 (by simp [hcase.1])

theorem advance_capInv (fuel : Nat) :
    ∀ (s : RecorderState) (now target : Nat), capInv s →
      capInv (advance fuel s now target) := by
  induction fuel with
  | zero => intro s now target h; exact h
  | succ n ih =>
      intro s now target h
      simp only [advance]
      cases hd : earliestDue s now target with
      | none => exact h
      | some d => exact ih _ _ _ (fireAt_capInv s d h)

/-- With the cap invariant, letting time run from any `now < 60000` up to
`60000` always leaves the session stopped: the interval ticks every 100 ms,
and its tick at `t = 60000` computes `duration = 60000 ≥ MAX_RECORDING_DURATION`
and calls `stopRecording`. -/
theorem advance_cap_stops (fuel : Nat) :
    ∀ (s : RecorderState) (now : Nat), capInv s →
      now < MAX_RECORDING_DURATION → MAX_RECORDING_DURATION ≤ now + fuel →
      (advance fuel s now MAX_RECORDING_DURATION).isRecording = false := by
  induction fuel with
  | zero =>
      intro s now _ h1 h2
      exact absurd (lt_of_lt_of_le h1 h2) (lt_irrefl _)
  | succ n ih =>
      intro s now hinv h1 h2
      cases hrec : s.isRecording with
      | false => exact advance_not_recording (n + 1) s now _ hrec
      | true =>
          have hds : s.durationStart = some 0 := hinv.2 hrec
          have hle : nextTick 0 now ≤ MAX_RECORDING_DURATION := by
            unfold nextTick MAX_RECORDING_DURATION
            unfold MAX_RECORDING_DURATION at h1
            omega
          have ht : dueTickTime s now MAX_RECORDING_DURATION = some (nextTick 0 now) := by
            rw [dueTickTime_some s now MAX_RECORDING_DURATION 0 hds, if_pos hle]
          obtain ⟨d, hd, hda⟩ := earliestDue_of_tick s now MAX_RECORDING_DURATION _ ht
          have hbounds := earliestDue_bounds s now MAX_RECORDING_DURATION d hd
          simp only [advance, hd]
          by_cases hfin : d = MAX_RECORDING_DURATION
          · -- the cap tick fires at 60000 and stops the session
            have hdue : tickDueAt s d = true := by
              unfold tickDueAt
              rw [hds, hfin]
              simp [MAX_RECORDING_DURATION]
            have hcap : MAX_RECORDING_DURATION ≤ d := by rw [hfin]
            have htick : durationTick s d =
                stopRecording { s with recordingDuration := d } := by
              simp [durationTick, hds, hcap]
            have hstop : (fireAt s d).isRecording = false := by
              unfold fireAt
              apply silencePhase_not_recording
              unfold tickPhase
              rw [hdue, if_pos rfl, htick]
              exact stopRecording_not_recording _ (by simp [hinv.1]) (by simp [hrec])
            exact advance_not_recording n _ d MAX_RECORDING_DURATION hstop
          · apply ih (fireAt s d) d (fireAt_capInv s d hinv)
            · exact lt_of_le_of_ne hbounds.2 hfin
            · omega

theorem onresult_capInv (s : RecorderState) (now i : Nat) (rs : List Fragment)
    (h : capInv s) : capInv (onresult s now i rs) := h

theorem runTo_cap (tr : List (Nat × Ev)) :
    ∀ (s : RecorderState) (now : Nat), capInv s → now < MAX_RECORDING_DURATION →
      (∀ p ∈ tr, p.1 < MAX_RECORDING_DURATION) → (∀ p ∈ tr, isResultEv p.2 = true) →
      (runTo s now tr MAX_RECORDING_DURATION).isRecording = false := by
  induction tr with
  | nil =>
      intro s now hinv h1 _ _
      unfold runTo advanceTo
      apply advance_cap_stops _ s now hinv h1
      omega
  | cons p rest ih =>
      obtain ⟨t, e⟩ := p
      intro s now hinv h1 htimes hevs
      have ht : t < MAX_RECORDING_DURATION := htimes (t, e) (List.mem_cons_self _ _)
      have hres : isResultEv e = true := hevs (t, e) (List.mem_cons_self _ _)
      obtain ⟨i, rs, he⟩ : ∃ i rs, e = Ev.result i rs := by
        cases e with
        | result i rs => exact ⟨i, rs, rfl⟩
        | error err => cases hres
        | streamEnd => cases hres
        | stop => cases hres
      subst he
      unfold runTo
      apply ih
      · exact onresult_capInv _ t i rs (advance_capInv _ s now t hinv)
      · exact ht
      · intro q hq; exact htimes q (List.mem_cons_of_mem _ hq)
      · intro q hq; exact hevs q (List.mem_cons_of_mem _ hq)

/-- C5: the duration cap fires 60000 ms after session start independently of
silence-timer resets: whatever recognizer-result batches arrive before
`t = 60000` (in particular one every 500 ms), the session freshly started at
`t = 0` is no longer recording once time reaches `t = 60000`. -/
theorem duration_cap_forces_stop (tr : List (Nat × Ev))
    (htimes : ∀ p ∈ tr, p.1 < MAX_RECORDING_DURATION)
    (hevs : ∀ p ∈ tr, isResultEv p.2 = true) :
    (runTo (recordingAt 0) 0 tr MAX_RECORDING_DURATION).isRecording = false :=
  runTo_cap tr (recordingAt 0) 0 ⟨rfl, fun _ => rfl⟩ (by decide) htimes hevs

/-- The continuous-update scenario of C5: one interim "hello" batch every
500 ms from session start. -/
def continuousTrace : List (Nat × Ev) :=
  (List.range 120).map (fun k => (500 * k, Ev.result 0 [⟨"hello", false⟩]))

/-- Witness for C5: on the every-500 ms update trace the session is still
recording at `t = 59950` (the silence timer never fires) yet stopped at
`t = 60000` (the duration cap). -/
theorem duration_cap_forces_stop_witness :
    (∀ p ∈ continuousTrace, p.1 < MAX_RECORDING_DURATION) ∧
    (runTo (recordingAt 0) 0 continuousTrace 59950).isRecording = true ∧
    (runTo (recordingAt 0) 0 continuousTrace MAX_RECORDING_DURATION).isRecording = false :=
  ⟨by decide, by decide, duration_cap_forces_stop continuousTrace (by decide) (by decide)⟩

/-- C3 (amended): every recognizer-result update at time `t` cancels and
re-arms the silence timer to fire at exactly `t + 2000`, capturing the new
transcript; when the deadline is reached with no further update, the session
has stopped, provided the captured transcript is non-blank — a blank capture
makes the firing a no-op (see the counterexample). -/
theorem silence_timer_rearm_and_stop (s : RecorderState) (t i : Nat)
    (rs : List Fragment) (hmr : s.mediaRecorder = true) (hrec : s.isRecording = true) :
    (onresult s t i rs).silenceTimer =
      some (t + SILENCE_THRESHOLD, batchTranscript i rs) ∧
    (¬ jsTrim (batchTranscript i rs) = "" →
      (advanceTo (onresult s t i rs) t (t + SILENCE_THRESHOLD)).isRecording = false) := by
  refine ⟨rfl, fun hc => ?_⟩
  unfold advanceTo
  apply advance_silence_stops (t + SILENCE_THRESHOLD + 1 - t) (onresult s t i rs) t
    (t + SILENCE_THRESHOLD) (batchTranscript i rs) hmr rfl hc
  · have : 0 < SILENCE_THRESHOLD := by decide
    omega
  · omega

/-- Witness for C3: a non-blank update at `t = 0` arms the timer for `t = 2000`
and the session is stopped once `t = 2000` is reached; and in the two-update
scenario (updates at 0 and 1000 ms) the session is still recording at 2500 ms
and stopped at 3000 ms. -/
theorem silence_timer_rearm_and_stop_witness :
    (onresult (recordingAt 0) 0 0 [⟨"hello", false⟩]).silenceTimer =
      some (0 + SILENCE_THRESHOLD, batchTranscript 0 [⟨"hello", false⟩]) ∧
    (advanceTo (onresult (recordingAt 0) 0 0 [⟨"hello", false⟩]) 0
      (0 + SILENCE_THRESHOLD)).isRecording = false ∧
    (runTo (recordingAt 0) 0
      [(0, .result 0 [⟨"hello", false⟩]), (1000, .result 0 [⟨"hello", false⟩])]
      2500).isRecording = true ∧
    (runTo (recordingAt 0) 0
      [(0, .result 0 [⟨"hello", false⟩]), (1000, .result 0 [⟨"hello", false⟩])]
      3000).isRecording = false := by
  have h := silence_timer_rearm_and_stop (recordingAt 0) 0 0 [⟨"hello", false⟩] rfl rfl
  exact ⟨h.1, h.2 (by decide), by decide, by decide⟩

/-- C3 counterexample (refuting the unconditional claim): a whitespace-only
interim update while recording re-arms the silence timer, the timer fires at
`t = 2000` (it is spent: `silenceTimer = none`), yet the session is still
recording at `t = 3000` and no completion was delivered — the code only stops
if the captured transcript trims non-empty. -/
theorem silence_timer_blank_update_cex :
    (advanceTo (onresult (recordingAt 0) 0 0 [⟨" ", false⟩]) 0 3000).isRecording = true ∧
    (advanceTo (onresult (recordingAt 0) 0 0 [⟨" ", false⟩]) 0 3000).silenceTimer = none ∧
    (advanceTo (onresult (recordingAt 0) 0 0 [⟨" ", false⟩]) 0 3000).completedCalls = [] :=
  ⟨by decide, by decide, by decide⟩

/-- C1: on each result batch the new transcript is computed only from the
fragments from the batch's start index onward — the final fragments
concatenated separately from the interim ones, the final concatenation taken
whenever it is non-empty and the interim concatenation otherwise — and it
replaces the previous transcript wholesale: the result does not depend on the
prior state (in particular not on the previous transcript) at all. -/
theorem onresult_batch_transcript (s s2 : RecorderState) (now now2 startIdx : Nat)
    (rs : List Fragment) :
    (onresult s now startIdx rs).transcript =
      (if finalsText (rs.drop startIdx) = "" then interimsText (rs.drop startIdx)
       else finalsText (rs.drop startIdx)) ∧
    (onresult s now startIdx rs).transcript = (onresult s2 now2 startIdx rs).transcript :=
  ⟨batchTranscript_eq startIdx rs, rfl⟩

/-- C2 counterexample: batch 1 finalizes "a" (from index 0), batch 2 arrives
with `resultIndex = 1` and finalizes "b".  The handler re-reads only from the
start index onward and replaces the transcript wholesale, so the transcript
ends as "b" — not the cross-batch concatenation "ab" (nor "aab") that the
claim requires. -/
theorem transcript_not_cumulative_cex :
    (onresult (onresult (recordingAt 0) 0 0 [⟨"a", true⟩]) 100 1
      [⟨"a", true⟩, ⟨"b", true⟩]).transcript = "b" ∧
    ("b" : String) ≠ "ab" ∧ ("b" : String) ≠ "aab" :=
  ⟨by decide, by decide, by decide⟩

/-- C2 (amended): after any sequence of batches, the transcript equals the
text computed from the LAST batch alone (its fragments from its start index
onward); when that batch's final concatenation is non-empty the transcript is
exactly that final concatenation, so interim text never survives it.  Final
text from earlier batches is retained only if the last batch's processed
range re-includes it. -/
theorem last_batch_determines_transcript (s : RecorderState)
    (bs : List (Nat × List Fragment)) (i : Nat) (rs : List Fragment) :
    (foldBatches s (bs ++ [(i, rs)])).transcript = batchTranscript i rs ∧
    (¬ finalsText (rs.drop i) = "" →
      (foldBatches s (bs ++ [(i, rs)])).transcript = finalsText (rs.drop i)) := by
  have h1 : foldBatches s (bs ++ [(i, rs)]) = onresult (foldBatches s bs) 0 i rs := by
    unfold foldBatches
    rw [List.foldl_append]
    rfl
  constructor
  · rw [h1]; rfl
  · intro hf
    rw [h1]
    show batchTranscript i rs = finalsText (rs.drop i)
    rw [batchTranscript_eq i rs, if_neg hf]

/-- C4: stopping an active session (recorder handle present, recording flag
set) appends the accumulated transcript to the `onRecordingComplete` history
exactly when it trims non-empty (the delivered value is the pre-teardown
transcript), delivers nothing when it trims blank, clears the transcript only
after that delivery, and teardown is idempotent: a second `stopRecording`, and
a duration-cap tick racing in after the stop, are both exact no-ops, so no
second delivery can occur. -/
theorem stop_delivers_exactly_once (s : RecorderState)
    (hmr : s.mediaRecorder = true) (hrec : s.isRecording = true) :
    (jsTrim s.transcript = "" → (stopRecording s).completedCalls = s.completedCalls) ∧
    (¬ jsTrim s.transcript = "" →
      (stopRecording s).completedCalls = s.completedCalls ++ [s.transcript]) ∧
    (stopRecording s).transcript = "" ∧
    stopRecording (stopRecording s) = stopRecording s ∧
    (∀ d, durationTick (stopRecording s) d = stopRecording s) := by
  have hg : (s.mediaRecorder && s.isRecording) = true := by simp [hmr, hrec]
  refine ⟨?_, ?_, ?_, ?_, ?_⟩
  · intro he; unfold stopRecording; rw [if_pos hg]; simp [cleanup, he]
  · intro he; unfold stopRecording; rw [if_pos hg]; simp [cleanup, he]
  · unfold stopRecording; rw [if_pos hg]; rfl
  · exact stopRecording_of_not_recording _ (stopRecording_not_recording s hmr hrec)
  · intro d
    have h3 : (stopRecording s).durationStart = none := by
      unfold stopRecording; rw [if_pos hg]; rfl
    unfold durationTick
    rw [h3]

/-- Witness for C4 on a session that finalized "hi": the completion history
receives exactly ["hi"], the transcript is cleared, and both a second stop and
a late cap tick are no-ops. -/
theorem stop_delivers_exactly_once_witness :
    (stopRecording (onresult (recordingAt 0) 0 0 [⟨"hi", true⟩])).completedCalls = ["hi"] ∧
    (stopRecording (onresult (recordingAt 0) 0 0 [⟨"hi", true⟩])).transcript = "" ∧
    stopRecording (stopRecording (onresult (recordingAt 0) 0 0 [⟨"hi", true⟩])) =
      stopRecording (onresult (recordingAt 0) 0 0 [⟨"hi", true⟩]) ∧
    durationTick (stopRecording (onresult (recordingAt 0) 0 0 [⟨"hi", true⟩])) 60000 =
      stopRecording (onresult (recordingAt 0) 0 0 [⟨"hi", true⟩]) := by
  have h := stop_delivers_exactly_once (onresult (recordingAt 0) 0 0 [⟨"hi", true⟩]) rfl rfl
  exact ⟨h.2.1 (by decide), h.2.2.1, h.2.2.2.1, h.2.2.2.2 60000⟩

/-- C6: a provider end-of-stream while the session is recording restarts the
recognition feed and changes nothing else — the session remains recording and
no completion is delivered; when the session is no longer recording the
restart is suppressed and the state is completely untouched. -/
theorem onend_restart (s : RecorderState) :
    (s.isRecording = true →
      onend s = { s with recognitionOn := true } ∧
      (onend s).isRecording = true ∧
      (onend s).completedCalls = s.completedCalls) ∧
    (s.isRecording = false → onend s = s) := by
  constructor
  · intro h
    unfold onend
    rw [if_pos h]
    exact ⟨rfl, by simp [h], rfl⟩
  · intro h
    unfold onend
    rw [if_neg (by simp [h])]

/-- Witness for C6: the end event on a live session restarts the feed and
keeps it recording; on the idle initial state it is a no-op. -/
theorem onend_restart_witness :
    (onend (recordingAt 0) = { recordingAt 0 with recognitionOn := true } ∧
      (onend (recordingAt 0)).isRecording = true ∧
      (onend (recordingAt 0)).completedCalls = (recordingAt 0).completedCalls) ∧
    onend initState = initState :=
  ⟨(onend_restart (recordingAt 0)).1 rfl, (onend_restart initState).2 rfl⟩

/-- C7: while recording, a `no-speech` recognition error takes exactly the
same path as a silence timeout — it is literally a `stopRecording` call — and
every other error kind is only logged: the state, transcript, resources and
callback histories are left completely unchanged. -/
theorem onerror_no_speech (s : RecorderState) (err : String)
    (hrec : s.isRecording = true) :
    (err = "no-speech" → onerror s err = stopRecording s) ∧
    (err ≠ "no-speech" → onerror s err = s) := by
  constructor
  · intro h; unfold onerror; rw [if_pos h]
  · intro h; unfold onerror; rw [if_neg h]

/-- Witness for C7: on a live session, `no-speech` stops the recording and a
`network` error changes nothing. -/
theorem onerror_no_speech_witness :
    (onerror (recordingAt 0) "no-speech" = stopRecording (recordingAt 0)) ∧
    (onerror (recordingAt 0) "network" = recordingAt 0) :=
  ⟨(onerror_no_speech (recordingAt 0) "no-speech" rfl).1 rfl,
   (onerror_no_speech (recordingAt 0) "network" rfl).2 (by decide)⟩

/-- C8 (code bug): evaluating a failed `start()` attempt.  When `getUserMedia`
succeeds and the `MediaRecorder` constructor then throws (line 152; e.g. the
fixed `audio/webm;codecs=opus` mime type is unsupported), the catch block only
runs `cleanup` (line 183): the session stays out of `Recording` and the
timers, animation frame and audio context are released, but the acquired
stream's tracks are never stopped — the only statement that stops them is the
recorder's `onstop` handler (line 172), which is neither installed nor
triggered on this path.  The same track leak occurs for the analyser-graph and
feed-start failures, so the claim that every partially-acquired handle
(including media tracks) is released before the error surfaces is false. -/
theorem start_failure_leaks_stream :
    (startRecording initState 0 .recorderFail).isRecording = false ∧
    (startRecording initState 0 .recorderFail).streamTracksLive = true ∧
    (startRecording initState 0 .recorderFail).silenceTimer = none ∧
    (startRecording initState 0 .recorderFail).durationStart = none ∧
    (startRecording initState 0 .recorderFail).animationFrame = false ∧
    (startRecording initState 0 .recorderFail).audioContextOpen = false ∧
    (startRecording initState 0 .analyserFail).streamTracksLive = true ∧
    (startRecording initState 0 .feedFail).streamTracksLive = true := by
  refine ⟨rfl, rfl, rfl, rfl, rfl, rfl, rfl, rfl⟩

theorem foldl_add_eq (t : List Nat) : ∀ a : Nat, t.foldl (· + ·) a = a + t.sum := by
  induction t with
  | nil => intro a; simp
  | cons x xs ih => intro a; simp [ih, Nat.add_assoc]

theorem jsReduceAdd_eq (bins : List Nat) (h : bins ≠ []) :
    jsReduceAdd bins = some bins.sum := by
  cases bins with
  | nil => cases h rfl
  | cons x xs => simp [jsReduceAdd, foldl_add_eq]

/-- C9: on any non-empty frequency-bin buffer, the level monitor succeeds and
sets `volume` to the arithmetic mean of the bins divided by 128, clamped at 1,
with `isSpeaking` true exactly when the volume exceeds 0.15; in particular an
all-128 buffer yields volume 1 and an all-zero buffer yields volume 0. -/
theorem checkAudioLevel_spec (s : RecorderState) (bins : List Nat) (h : bins ≠ []) :
    ∃ s2, checkAudioLevel s bins = some s2 ∧
      s2.volume = min (((bins.sum : ℚ) / (bins.length : ℚ)) / 128) 1 ∧
      (s2.isSpeaking = true ↔ (15 : ℚ) / 100 < s2.volume) ∧
      (bins = List.replicate bins.length 128 → s2.volume = 1) ∧
      (bins = List.replicate bins.length 0 → s2.volume = 0) := by
  have hr := jsReduceAdd_eq bins h
  have hlen : (0 : ℚ) < (bins.length : ℚ) := by
    have h2 : 0 < bins.length := List.length_pos.mpr h
    exact_mod_cast h2
  refine ⟨{ s with
      volume := min (((bins.sum : ℚ) / (bins.length : ℚ)) / 128) 1,
      isSpeaking :=
        decide ((15 : ℚ) / 100 < min (((bins.sum : ℚ) / (bins.length : ℚ)) / 128) 1),
      animationFrame := true }, ?_, rfl, ?_, ?_, ?_⟩
  · unfold checkAudioLevel
    rw [hr]
    rfl
  · exact decide_eq_true_iff
  · intro hrep
    show min (((bins.sum : ℚ) / (bins.length : ℚ)) / 128) 1 = 1
    have hsum : bins.sum = bins.length * 128 := by
      conv_lhs => rw [hrep]
      simp [List.sum_replicate]
    rw [hsum]
    have hq : (((bins.length * 128 : ℕ) : ℚ) / (bins.length : ℚ)) / 128 = 1 := by
      push_cast
      field_simp
    rw [hq, min_self]
  · intro hrep
    show min (((bins.sum : ℚ) / (bins.length : ℚ)) / 128) 1 = 0
    have hsum : bins.sum = 0 := by
      conv_lhs => rw [hrep]
      simp
    rw [hsum]
    norm_num

/-- Witness for C9: three bins at 128 give volume 1 (and the speaking flag),
two zero bins give volume 0 (and no speaking flag). -/
theorem checkAudioLevel_spec_witness :
    (∃ s2, checkAudioLevel initState [128, 128, 128] = some s2 ∧
      s2.volume = 1 ∧ s2.isSpeaking = true) ∧
    (∃ s2, checkAudioLevel initState [0, 0] = some s2 ∧
      s2.volume = 0 ∧ s2.isSpeaking = false) := by
  constructor
  · obtain ⟨s2, he, _, hiff, h128, _⟩ :=
      checkAudioLevel_spec initState [128, 128, 128] (by decide)
    have hvol : s2.volume = 1 := h128 (by decide)
    exact ⟨s2, he, hvol, hiff.mpr (by rw [hvol]; norm_num)⟩
  · obtain ⟨s2, he, _, hiff, _, h0⟩ :=
      checkAudioLevel_spec initState [0, 0] (by decide)
    have hvol : s2.volume = 0 := h0 (by decide)
    refine ⟨s2, he, hvol, ?_⟩
    cases hsp : s2.isSpeaking with
    | false => rfl
    | true =>
        have h15 := hiff.mp hsp
        rw [hvol] at h15
        norm_num at h15

/-- C10: calling `stopRecording` when the guard fails — no recorder handle or
the session is not recording — is a complete no-op: the whole state, including
transcript, flags, resource handles and both callback histories, is returned
unchanged. -/
theorem stop_noop_when_idle (s : RecorderState)
    (h : ¬(s.mediaRecorder = true ∧ s.isRecording = true)) : stopRecording s = s := by
  have hcond : ¬((s.mediaRecorder && s.isRecording) = true) := by
    simp only [Bool.and_eq_true]
    exact h
  unfold stopRecording
  rw [if_neg hcond]

/-- Witness for C10: stopping the idle initial state changes nothing. -/
theorem stop_noop_when_idle_witness : stopRecording initState = initState :=
  stop_noop_when_idle initState (by decide)

/-- Witness for the amended C2: a two-batch sequence whose last batch (from
start index 0) finalizes "a" and "b" ends with transcript "ab" — the last
batch's final concatenation — regardless of the earlier interim batch. -/
theorem last_batch_determines_transcript_witness :
    (foldBatches initState
      ([(0, [⟨"x", false⟩])] ++ [(0, [⟨"a", true⟩, ⟨"b", true⟩])])).transcript =
      batchTranscript 0 [⟨"a", true⟩, ⟨"b", true⟩] ∧
    (foldBatches initState
      ([(0, [⟨"x", false⟩])] ++ [(0, [⟨"a", true⟩, ⟨"b", true⟩])])).transcript =
      finalsText (List.drop 0 [⟨"a", true⟩, ⟨"b", true⟩]) := by
  have h := last_batch_determines_transcript initState [(0, [⟨"x", false⟩])] 0
    [⟨"a", true⟩, ⟨"b", true⟩]
  exact ⟨h.1, h.2 (by decide)⟩
